import Mathlib

/-!
Verification development for the `mina-multi-sig` helper scripts.

Part A embeds the leaf encoders and the structural pieces of
`scripts/json_to_zkapp_mapper.py` that the claims refer to; part B embeds
the witness tokenizer/decoder and the comparator of
`scripts/array_compare.py`.  Pure Python functions become Lean functions on
explicit data types; Python dictionaries with known keys become structures
with `Option` fields (`dict.get(k, d)` becomes `Option.getD`); Python
string formatting becomes string concatenation; Python exceptions become
`Option` results.  Braces that occur literally inside produced Rust text
are written with the `\x7b` / `\x7d` escapes.
-/

/-- Scalar argument accepted by the field-element encoder: the Python
function receives either a string or an int (or `None`, modelled by the
surrounding `Option`). -/
inductive FieldArg where
  | str (s : String)
  | int (i : Int)
deriving DecidableEq

/-- Model of Python `str.isdigit`: true iff the string is nonempty and every
character is a decimal digit (stated over the character list of the
string). -/
def py_isdigit (s : String) : Bool :=
  !s.data.isEmpty && s.data.all Char.isDigit

/-- Model of `format_field` (json_to_zkapp_mapper.py, lines 49-57).
`None` yields the default; a string that passes `isdigit`, an int, and any
other string all fall into template lines 54, 56 and 57 respectively, which
emit the same `Fp::from_str` template (an int is interpolated via its
decimal representation, `toString`). -/
def format_field (value : Option FieldArg) : String :=
  match value with
  | none => "Field::default()"
  | some (FieldArg.str s) =>
    if py_isdigit s then
      "Field(Fp::from_str(\"" ++ s ++ "\").unwrap())"
    else
      "Field(Fp::from_str(\"" ++ s ++ "\").unwrap())"
  | some (FieldArg.int i) =>
    "Field(Fp::from_str(\"" ++ toString i ++ "\").unwrap())"

/-- Model of `format_auth_required` (json_to_zkapp_mapper.py, lines 90-99):
the Python dict lookup `auth_mapping.get(auth_str, "AuthRequired::default()")`
becomes a chain of equality tests over the five keys of the dict literal. -/
def format_auth_required (auth_str : String) : String :=
  if auth_str = "Signature" then
    "AuthRequired \x7b constant: true, signature_necessary: true, signature_sufficient: true \x7d"
  else if auth_str = "Impossible" then
    "AuthRequired \x7b constant: true, signature_necessary: false, signature_sufficient: false \x7d"
  else if auth_str = "Either" then
    "AuthRequired \x7b constant: false, signature_necessary: false, signature_sufficient: false \x7d"
  else if auth_str = "Proof" then
    "AuthRequired \x7b constant: true, signature_necessary: false, signature_sufficient: false \x7d"
  else if auth_str = "None" then
    "AuthRequired \x7b constant: false, signature_necessary: false, signature_sufficient: false \x7d"
  else
    "AuthRequired::default()"

/-- Model of the balance-change sign conversion inside `format_account_update`
(json_to_zkapp_mapper.py, lines 283-285):
`sgn_value = "1" if sgn == "Positive" else "-1"`. -/
def sgn_value (sgn : String) : String :=
  if sgn = "Positive" then "1" else "-1"

/-- Run of `n` spaces, used for the indentation literals inside the
`vec![...]` templates of the source. -/
def indent (n : Nat) : String :=
  String.mk (List.replicate n ' ')

/-- Model of the item loop of `format_app_state` (json_to_zkapp_mapper.py,
lines 104-109): one output slot per input slot, `None` producing the
absence-tagged slot and any other value the presence-tagged slot around
`format_field(item)`. -/
def format_app_state_items (app_state : List (Option FieldArg)) : List String :=
  app_state.map (fun item =>
    match item with
    | none => "OptionalValue \x7b is_some: false, value: Field::default() \x7d"
    | some v =>
      "OptionalValue \x7b is_some: true, value: " ++ format_field (some v) ++ " \x7d")

/-- Model of `format_app_state` (json_to_zkapp_mapper.py, lines 102-112):
the items joined with `",\n" ++ 36 spaces` inside a `vec![...]` literal. -/
def format_app_state (app_state : List (Option FieldArg)) : String :=
  let formatted_items := format_app_state_items app_state
  let joined_items := String.intercalate (",\n" ++ indent 36) formatted_items
  "vec![\n" ++ indent 36 ++ joined_items ++ ",\n" ++ indent 32 ++ "]"

/-- Model of the item loop of `format_account_state` (json_to_zkapp_mapper.py,
lines 155-160); the loop body is identical to the one of
`format_app_state`. -/
def format_account_state_items (state : List (Option FieldArg)) : List String :=
  state.map (fun item =>
    match item with
    | none => "OptionalValue \x7b is_some: false, value: Field::default() \x7d"
    | some v =>
      "OptionalValue \x7b is_some: true, value: " ++ format_field (some v) ++ " \x7d")

/-- Model of `format_account_state` (json_to_zkapp_mapper.py, lines 153-163):
same as `format_app_state` but joined with 44 spaces of indentation and
closed with 40. -/
def format_account_state (state : List (Option FieldArg)) : String :=
  let formatted_items := format_account_state_items state
  let joined_items := String.intercalate (",\n" ++ indent 44) formatted_items
  "vec![\n" ++ indent 44 ++ joined_items ++ ",\n" ++ indent 40 ++ "]"

/-- Mapping (dictionary) argument of `format_range_condition`: only the
`"lower"` and `"upper"` keys are ever read, each possibly absent. -/
structure RangeData where
  lower : Option Int
  upper : Option Int
deriving DecidableEq

/-- Model of `format_range_condition` (json_to_zkapp_mapper.py, lines 80-87):
`None` yields the absence-tagged default; otherwise the two bounds are read
with `range_data.get("lower", 0)` / `range_data.get("upper", 0)` — a missing
key silently becomes `0` — and interpolated next to the type suffix. -/
def format_range_condition (range_data : Option RangeData) (type_name : String) : String :=
  match range_data with
  | none => "OptionalValue \x7b is_some: false, value: RangeCondition::default() \x7d"
  | some rd =>
    let lower := rd.lower.getD 0
    let upper := rd.upper.getD 0
    "OptionalValue \x7b is_some: true, value: RangeCondition \x7b lower: " ++
      toString lower ++ type_name ++ ", upper: " ++ toString upper ++ type_name ++
      " \x7d \x7d"

/-! Part B: embedding of `scripts/array_compare.py`. -/

/-- Token type tags of the witness grammar (array_compare.py, line 44). -/
inductive Tag where
  | BOOL
  | U32
  | U64
  | BYTES
deriving DecidableEq

/-- Captured `val` group of the token pattern (array_compare.py, lines 46-50):
a case-insensitive `true`/`false` word, a digit run, or a bracketed chunk
`[` ++ inner ++ `]` whose inner text contains no closing bracket. -/
inductive TokVal where
  | word (s : String)
  | digits (s : String)
  | bracket (inner : String)
deriving DecidableEq

/-- Text of a captured `val` group, as the Python code receives it. -/
def tokText : TokVal → String
  | TokVal.word s => s
  | TokVal.digits s => s
  | TokVal.bracket inner => "[" ++ inner ++ "]"

/-- Characters matched by the regex class `\s` (Python whitespace). -/
def isPySpace (c : Char) : Bool :=
  c = ' ' || c = '\t' || c = '\n' || c = '\r' || c = '\x0b' || c = '\x0c'

/-- Consume the regex fragment `\s*`. -/
def dropSpaces (l : List Char) : List Char :=
  l.dropWhile isPySpace

/-- Strip leading and trailing Python whitespace from a character list
(model of `str.strip()`). -/
def stripSpaces (l : List Char) : List Char :=
  ((l.dropWhile isPySpace).reverse.dropWhile isPySpace).reverse

/-- Model of `str.strip()`. -/
def py_strip (s : String) : String :=
  String.mk (stripSpaces s.data)

/-- Model of `str.lower()` (ASCII case folding suffices for the grammar). -/
def py_lower (s : String) : String :=
  String.mk (s.data.map Char.toLower)

/-- Case-insensitive literal match: checks that `l` starts with the keyword
`ks` (given in lowercase) and returns the remaining characters. -/
def stripPrefixCI : List Char → List Char → Option (List Char)
  | [], l => some l
  | _ :: _, [] => none
  | k :: ks, c :: cs => if c.toLower = k then stripPrefixCI ks cs else none

/-- The alternation `BOOL|U32|U64|BYTES` of the token pattern, matched
case-insensitively at the head of `l`. -/
def matchKeyword (l : List Char) : Option (Tag × List Char) :=
  match stripPrefixCI ['b', 'o', 'o', 'l'] l with
  | some r => some (Tag.BOOL, r)
  | none =>
    match stripPrefixCI ['u', '3', '2'] l with
    | some r => some (Tag.U32, r)
    | none =>
      match stripPrefixCI ['u', '6', '4'] l with
      | some r => some (Tag.U64, r)
      | none =>
        match stripPrefixCI ['b', 'y', 't', 'e', 's'] l with
        | some r => some (Tag.BYTES, r)
        | none => none

/-- Match one literal character. -/
def expectChar (c : Char) : List Char → Option (List Char)
  | [] => none
  | x :: xs => if x = c then some xs else none

/-- The value alternation `true|false|\d+|\[[^\]]*\]` of the token pattern
(case-insensitive, greedy, leftmost alternative first — the alternatives
start with distinct characters, so no backtracking is observable). -/
def parseValue (l : List Char) : Option (TokVal × List Char) :=
  match stripPrefixCI ['t', 'r', 'u', 'e'] l with
  | some r => some (TokVal.word (String.mk (l.take 4)), r)
  | none =>
    match stripPrefixCI ['f', 'a', 'l', 's', 'e'] l with
    | some r => some (TokVal.word (String.mk (l.take 5)), r)
    | none =>
      match l with
      | [] => none
      | c :: _ =>
        if c.isDigit then
          some (TokVal.digits (String.mk (l.takeWhile Char.isDigit)), l.dropWhile Char.isDigit)
        else if c = '[' then
          match expectChar ']' ((l.drop 1).dropWhile (fun x => x ≠ ']')) with
          | some rest =>
            some (TokVal.bracket (String.mk ((l.drop 1).takeWhile (fun x => x ≠ ']'))), rest)
          | none => none
        else none

/-- One attempt to match the whole token pattern of `parse_format_A`
(array_compare.py, lines 43-52) at the head of `l`:
`TYPE \s* { \s* val: \s* VALUE \s* }`. -/
def matchToken (l : List Char) : Option ((Tag × TokVal) × List Char) :=
  match matchKeyword l with
  | none => none
  | some (tag, r1) =>
    match expectChar '{' (dropSpaces r1) with
    | none => none
    | some r3 =>
      match stripPrefixCI ['v', 'a', 'l', ':'] (dropSpaces r3) with
      | none => none
      | some r5 =>
        match parseValue (dropSpaces r5) with
        | none => none
        | some (v, r7) =>
          match expectChar '}' (dropSpaces r7) with
          | none => none
          | some r9 => some ((tag, v), r9)

/-- Fuelled scanner implementing `re.finditer` over the token pattern: at
each position either a token matches (the scan resumes after it) or the
scan advances one character.  A successful match always consumes at least
the keyword, so fuel equal to the input length suffices. -/
def scanAux : Nat → List Char → List (Tag × TokVal)
  | 0, _ => []
  | fuel + 1, l =>
    match matchToken l with
    | some (tok, rest) => tok :: scanAux fuel rest
    | none =>
      match l with
      | [] => []
      | _ :: t => scanAux fuel t

/-- All non-overlapping, leftmost matches of the token pattern, in order
(the `pattern.finditer(text)` loop of array_compare.py, line 56). -/
def scan (l : List Char) : List (Tag × TokVal) :=
  scanAux l.length l

/-- Model of `parse_bool` (array_compare.py, lines 8-10):
`token.strip().lower() == "true"` decides the bit, the width is 1. -/
def parse_bool (token : String) : Nat × Nat :=
  (if py_lower (py_strip token) = "true" then 1 else 0, 1)

/-- Numeric value of a run of decimal digits. -/
def digitsVal (l : List Char) : Nat :=
  l.foldl (fun n c => 10 * n + (c.toNat - 48)) 0

/-- Model of Python `int()` on unsigned decimal strings: defined (as the
digit value) exactly when the text is a nonempty digit run, and a
`ValueError` (`none`) otherwise.  The captured token texts this model is
applied to never carry whitespace or signs. -/
def pyNat (s : String) : Option Nat :=
  if py_isdigit s then some (digitsVal s.data) else none

/-- Model of Python `int()` on optionally-signed decimal strings. -/
def pyInt (s : String) : Option Int :=
  match s.data with
  | '-' :: rest => (pyNat (String.mk rest)).map (fun n => -(n : Int))
  | '+' :: rest => (pyNat (String.mk rest)).map (fun n => (n : Int))
  | _ => (pyNat s).map (fun n => (n : Int))

/-- Model of `parse_u32` (array_compare.py, lines 12-13): `int(token)` with
declared width 32; a non-numeric token raises (`none`). -/
def parse_u32 (token : String) : Option (Nat × Nat) :=
  (pyNat token).map (fun n => (n, 32))

/-- Model of `parse_u64` (array_compare.py, lines 15-16). -/
def parse_u64 (token : String) : Option (Nat × Nat) :=
  (pyNat token).map (fun n => (n, 64))

/-- The byte-array loop of `parse_bytes` (array_compare.py, lines 21-26):
width `len * 8`, value folded big-endian via `value = (value << 8) | b`. -/
def parse_bytes_core (arr : List Nat) : Nat × Nat :=
  let bit_width := arr.length * 8
  let value := arr.foldl (fun value b => (value <<< 8) ||| b) 0
  (value, bit_width)

/-- Model of `ast.literal_eval` on a captured bracket chunk, restricted to
list displays of unsigned decimal integers: `[` n₁ , … , nₖ `]` with
optional whitespace.  Any other content (letters, nested or signed
literals, empty items) raises (`none`), as `literal_eval` does on
malformed chunks; negative literals, which `literal_eval` would accept,
are outside the domain the claims need and are conservatively mapped to
`none` as well. -/
def pyIntList (token : String) : Option (List Nat) :=
  match token.data with
  | '[' :: rest =>
    match rest.reverse with
    | ']' :: revInner =>
      let inner := stripSpaces revInner.reverse
      if inner = [] then some []
      else (inner.splitOn ',').mapM (fun p => pyNat (String.mk (stripSpaces p)))
    | _ => none
  | _ => none

/-- Model of `parse_bytes` (array_compare.py, lines 18-26): evaluate the
bracket chunk to a byte list, then run the big-endian fold. -/
def parse_bytes (token : String) : Option (Nat × Nat) :=
  (pyIntList token).map parse_bytes_core

/-- Dispatch on the matched type tag (array_compare.py, lines 60-69). -/
def token_value (t : Tag) (v : TokVal) : Option (Nat × Nat) :=
  match t with
  | Tag.BOOL => some (parse_bool (tokText v))
  | Tag.U32 => parse_u32 (tokText v)
  | Tag.U64 => parse_u64 (tokText v)
  | Tag.BYTES => parse_bytes (tokText v)

/-- Model of `parse_format_A` (array_compare.py, lines 33-71): tokenize the
text with the pattern and convert every match; the first conversion that
raises aborts the whole decode (`none`). -/
def parse_format_A (text : String) : Option (List (Nat × Nat)) :=
  (scan text.data).mapM (fun tv => token_value tv.1 tv.2)

/-- A value slot of the reference array handed to `compare_arrays`: either a
plain integer or a string (a decimal numeral possibly carrying trailing
big-integer `n` markers). -/
inductive PyVal where
  | int (i : Int)
  | str (s : String)
deriving DecidableEq

/-- Model of `str(b).rstrip("n")`: drop every trailing `n`. -/
def rstrip_n (s : String) : String :=
  String.mk ((s.data.reverse.dropWhile (fun c => c = 'n')).reverse)

/-- The reference-value normalization of `compare_arrays` (array_compare.py,
line 96): a string is stripped of trailing `n` markers and converted with
`int(...)` (which can raise, `none`); an integer is passed through. -/
def ref_value : PyVal → Option Int
  | PyVal.int i => some i
  | PyVal.str s => pyInt (rstrip_n s)

/-- The index loop of `compare_arrays` (array_compare.py, lines 91-100),
carrying the running index `i`: the loop stops at the end of the shorter
array, normalizes the reference pair, and records a triple whenever the
decoded pair differs from it; a failing conversion aborts (`none`). -/
def compareAux :
    Nat → List (Int × Int) → List (PyVal × Int) →
      Option (List (Nat × (Int × Int) × (Int × Int)))
  | _, [], _ => some []
  | _, _ :: _, [] => some []
  | i, a :: as, b :: bs =>
    match ref_value b.1 with
    | none => none
    | some b0 =>
      match compareAux (i + 1) as bs with
      | none => none
      | some rest =>
        some (if a ≠ (b0, b.2) then (i, a, (b0, b.2)) :: rest else rest)

/-- Model of `compare_arrays` (array_compare.py, lines 78-102).  The printed
length-mismatch diagnostic is modelled as the boolean component of the
result; the mismatch list is the loop's output. -/
def compare_arrays (arr1 : List (Int × Int)) (arr2 : List (PyVal × Int)) :
    Option (Bool × List (Nat × (Int × Int) × (Int × Int))) :=
  match compareAux 0 arr1 arr2 with
  | none => none
  | some ms => some (decide (arr1.length ≠ arr2.length), ms)

/-- Result entry produced by one iteration of the comparison loop: the
normalized reference pair is built from the (assumed convertible) reference
value, and a triple is recorded exactly when the decoded pair differs from
it. -/
def mismatch_entry (i : Nat) (a : Int × Int) (b : PyVal × Int) :
    Option (Nat × (Int × Int) × (Int × Int)) :=
  let bb := ((ref_value b.1).getD 0, b.2)
  if a ≠ bb then some (i, a, bb) else none

/-! Theorems. -/

/-- Claim C2, counterexample: the label "Unknown" differs from the negative
label "Negative", yet the mapped sign is "-1", not the claimed default
"+1". -/
theorem c2_sign_counterexample :
    sgn_value "Unknown" = "-1" ∧ ("Unknown" : String) ≠ "Negative" := by
  decide

/-- Claim C2, amended: the mapped sign is always exactly "1" or "-1", and it
is "1" exactly when the source label is "Positive"; every other label
(including "Negative" and unrecognized strings) maps to "-1", so "+1" is
not the default for non-negative labels. -/
theorem c2_sign_amended (s : String) :
    (sgn_value s = "1" ∨ sgn_value s = "-1") ∧ (sgn_value s = "1" ↔ s = "Positive") := by
  unfold sgn_value
  by_cases h : s = "Positive"
  · rw [if_pos h]
    exact ⟨Or.inl rfl, by simp [h]⟩
  · rw [if_neg h]
    refine ⟨Or.inr rfl, ?_, fun hp => absurd hp h⟩
    intro h1
    exact absurd h1 (by decide)

/-- Claim C3: the mapped balance-change sign is "1" when the source label is
exactly "Positive", and "-1" for every other label. -/
theorem c3_sign_positive_else_negative :
    sgn_value "Positive" = "1" ∧ ∀ s : String, s ≠ "Positive" → sgn_value s = "-1" := by
  refine ⟨rfl, ?_⟩
  intro s hs
  simp [sgn_value, hs]

/-- Claim C3, witness: the label "Negative" maps to "-1". -/
theorem c3_sign_positive_else_negative_witness : sgn_value "Negative" = "-1" :=
  c3_sign_positive_else_negative.2 "Negative" (by decide)

/-- Claim C4, counterexample: the known label "Both" does not receive an enum
value of its own — it falls through to the fallback `AuthRequired::default()`,
which is not the encoding of the label "None". -/
theorem c4_auth_counterexample :
    format_auth_required "Both" = "AuthRequired::default()" ∧
      format_auth_required "Both" ≠ format_auth_required "None" := by
  decide

/-- Claim C4, amended: the encoder maps the five labels present in its table
(None, Either, Proof, Signature, Impossible) to their enum encodings, while
"Both" and every other unknown or empty label return the fallback
`AuthRequired::default()`, which is textually distinct from the "None"
encoding. -/
theorem c4_auth_amended :
    format_auth_required "None" =
      "AuthRequired \x7b constant: false, signature_necessary: false, signature_sufficient: false \x7d" ∧
    format_auth_required "Either" =
      "AuthRequired \x7b constant: false, signature_necessary: false, signature_sufficient: false \x7d" ∧
    format_auth_required "Proof" =
      "AuthRequired \x7b constant: true, signature_necessary: false, signature_sufficient: false \x7d" ∧
    format_auth_required "Signature" =
      "AuthRequired \x7b constant: true, signature_necessary: true, signature_sufficient: true \x7d" ∧
    format_auth_required "Impossible" =
      "AuthRequired \x7b constant: true, signature_necessary: false, signature_sufficient: false \x7d" ∧
    ∀ s : String, s ≠ "Signature" → s ≠ "Impossible" → s ≠ "Either" → s ≠ "Proof" →
      s ≠ "None" → format_auth_required s = "AuthRequired::default()" := by
  refine ⟨by decide, by decide, by decide, by decide, by decide, ?_⟩
  intro s h1 h2 h3 h4 h5
  simp [format_auth_required, h1, h2, h3, h4, h5]

/-- Claim C4, witness: the sixth known label "Both" takes the fallback. -/
theorem c4_auth_amended_witness : format_auth_required "Both" = "AuthRequired::default()" :=
  c4_auth_amended.2.2.2.2.2 "Both" (by decide) (by decide) (by decide) (by decide) (by decide)

/-- Claim C5, counterexample: a non-numeric string is not rejected — the
field-element encoder pushes it into the same `Fp::from_str` template as an
accepted value, returning normally. -/
theorem c5_field_counterexample :
    format_field (some (FieldArg.str "not-a-number")) =
      "Field(Fp::from_str(\"not-a-number\").unwrap())" := by
  decide

/-- Claim C5, amended: null maps to the canonical default, and an integer and
its decimal-string form encode identically; but any other scalar string is
not rejected — it is encoded through the same template, the failure being
deferred to the generated code. -/
theorem c5_field_amended :
    format_field none = "Field::default()" ∧
    (∀ i : Int, format_field (some (FieldArg.int i)) = format_field (some (FieldArg.str (toString i)))) ∧
    (∀ s : String, py_isdigit s = false →
      format_field (some (FieldArg.str s)) = "Field(Fp::from_str(\"" ++ s ++ "\").unwrap())") := by
  refine ⟨rfl, ?_, ?_⟩
  · intro i
    simp [format_field]
  · intro s hs
    simp [format_field, hs]

/-- Claim C5, witness: a concrete non-digit scalar goes through the template
unrejected. -/
theorem c5_field_amended_witness :
    format_field (some (FieldArg.str "xy")) = "Field(Fp::from_str(\"xy\").unwrap())" :=
  c5_field_amended.2.2 "xy" (by decide)

/-- Claim C6, counterexample: a present range mapping lacking its "lower" key
does not fail — the mapper substitutes the default bound 0 and produces the
record, with no path-qualified error. -/
theorem c6_range_counterexample :
    format_range_condition (some ⟨none, some 5⟩) "u64" =
      "OptionalValue \x7b is_some: true, value: RangeCondition \x7b lower: 0u64, upper: 5u64 \x7d \x7d" := by
  decide

/-- Claim C6, amended: for a present range-condition mapping, a missing
"lower" or "upper" key behaves exactly like an explicit bound 0 — the
mapper substitutes the default and never fails the document. -/
theorem c6_range_amended (lo hi : Option Int) (tn : String) :
    format_range_condition (some ⟨lo, hi⟩) tn =
      format_range_condition (some ⟨some (lo.getD 0), some (hi.getD 0)⟩) tn := by
  cases lo <;> cases hi <;> rfl

/-- Claim C10: the labels "Proof" and "Impossible" receive the identical
encoding (constant true, signature_necessary false, signature_sufficient
false), although the labels themselves differ — the encoding is not
injective on the known labels. -/
theorem c10_proof_impossible_identical :
    format_auth_required "Proof" = format_auth_required "Impossible" ∧
    format_auth_required "Proof" =
      "AuthRequired \x7b constant: true, signature_necessary: false, signature_sufficient: false \x7d" ∧
    ("Proof" : String) ≠ "Impossible" := by
  decide

/-- Indexing a mapped list below its length applies the function to the
entry at that index. -/
theorem getD_map_of_lt {α β : Type} (f : α → β) (l : List α) (d : α) (e : β) (i : Nat)
    (h : i < l.length) : (l.map f).getD i e = f (l.getD i d) := by
  rw [List.getD_eq_getElem?_getD, List.getD_eq_getElem?_getD, List.getElem?_map,
    List.getElem?_eq_getElem h]
  simp

/-- A presence-tagged slot never coincides with the absence-tagged slot: the
two texts already differ at their 26th character. -/
theorem presence_ne_absent (v : FieldArg) :
    "OptionalValue \x7b is_some: true, value: " ++ format_field (some v) ++ " \x7d" ≠
      "OptionalValue \x7b is_some: false, value: Field::default() \x7d" := by
  intro h
  have hd := congrArg String.data h
  rw [String.data_append, String.data_append] at hd
  rw [List.append_assoc] at hd
  have e1 : ("OptionalValue \x7b is_some: true, value: " : String).data =
      ("OptionalValue \x7b is_some: t" : String).data ++ ("rue, value: " : String).data := by
    decide
  have e2 : ("OptionalValue \x7b is_some: false, value: Field::default() \x7d" : String).data =
      ("OptionalValue \x7b is_some: f" : String).data ++
        ("alse, value: Field::default() \x7d" : String).data := by
    decide
  rw [e1, e2, List.append_assoc] at hd
  have hpre := List.append_inj_left hd (by decide)
  exact absurd hpre (by decide)

/-- Claim C1, counterexample: the slot arrays are not padded to 8 — an empty
app-state input yields 0 slots and a 3-slot account-state input yields 3
slots. -/
theorem c1_eight_slot_counterexample :
    (format_app_state_items []).length ≠ 8 ∧
    (format_account_state_items [none, none, none]).length ≠ 8 := by
  decide

/-- Claim C1, amended: the mapper emits exactly one slot per input slot — the
output array's length equals the input array's length (8 slots exactly when
the input has 8), and absent (null) inputs are preserved positionally as
absence-tagged slots, never compacted: the slot at index `i` is the
absence-tagged slot if and only if the input at index `i` is null. -/
theorem c1_slots_amended (l : List (Option FieldArg)) :
    (format_app_state_items l).length = l.length ∧
    (format_account_state_items l).length = l.length ∧
    ∀ i : Nat, i < l.length →
      (((format_app_state_items l).getD i "" =
          "OptionalValue \x7b is_some: false, value: Field::default() \x7d") ↔
        l.getD i none = none) ∧
      (((format_account_state_items l).getD i "" =
          "OptionalValue \x7b is_some: false, value: Field::default() \x7d") ↔
        l.getD i none = none) := by
  refine ⟨by simp [format_app_state_items], by simp [format_account_state_items], ?_⟩
  intro i hi
  have h1 := getD_map_of_lt (fun item =>
    match item with
    | none => "OptionalValue \x7b is_some: false, value: Field::default() \x7d"
    | some v => "OptionalValue \x7b is_some: true, value: " ++ format_field (some v) ++ " \x7d")
    l none "" i hi
  have ha : (format_app_state_items l).getD i "" =
      (match l.getD i none with
      | none => "OptionalValue \x7b is_some: false, value: Field::default() \x7d"
      | some v => "OptionalValue \x7b is_some: true, value: " ++ format_field (some v) ++ " \x7d") :=
    h1
  have hb : (format_account_state_items l).getD i "" =
      (match l.getD i none with
      | none => "OptionalValue \x7b is_some: false, value: Field::default() \x7d"
      | some v => "OptionalValue \x7b is_some: true, value: " ++ format_field (some v) ++ " \x7d") :=
    h1
  cases hv : l.getD i none with
  | none =>
    rw [hv] at ha hb
    exact ⟨⟨fun _ => rfl, fun _ => ha⟩, ⟨fun _ => rfl, fun _ => hb⟩⟩
  | some v =>
    rw [hv] at ha hb
    constructor
    · exact ⟨fun hc => absurd (ha.symm.trans hc) (presence_ne_absent v), fun hc => nomatch hc⟩
    · exact ⟨fun hc => absurd (hb.symm.trans hc) (presence_ne_absent v), fun hc => nomatch hc⟩

/-- Claim C1, witness: a two-slot input yields two slots, and the null at
index 1 is preserved there as the absence-tagged slot. -/
theorem c1_slots_amended_witness :
    (format_app_state_items [some (FieldArg.int 5), none]).length = 2 ∧
    (format_app_state_items [some (FieldArg.int 5), none]).getD 1 "" =
      "OptionalValue \x7b is_some: false, value: Field::default() \x7d" := by
  have h := c1_slots_amended [some (FieldArg.int 5), none]
  exact ⟨h.1, ((h.2.2 1 (by decide)).1).mpr rfl⟩

/-- Shifting left by a byte and or-ing in a value below 256 is the same as
the multiply-and-add step of the big-endian base-256 interpretation. -/
theorem shiftLeft_lor_step (v b : Nat) (hb : b < 256) : (v <<< 8) ||| b = 256 * v + b := by
  have e : (2 : Nat) ^ 8 = 256 := by norm_num
  have hb2 : b < 2 ^ 8 := by rw [e]; exact hb
  have key := Nat.mul_add_lt_is_or hb2 v
  rw [Nat.shiftLeft_eq, Nat.mul_comm v (2 ^ 8), ← key, e]

/-- Over byte values the shift-and-or fold of `parse_bytes` agrees with the
base-256 multiply-and-add fold, for every accumulator. -/
theorem foldl_shiftor_eq_base256 :
    ∀ (arr : List Nat) (v : Nat), (∀ b ∈ arr, b < 256) →
      arr.foldl (fun value b => (value <<< 8) ||| b) v =
        arr.foldl (fun value b => 256 * value + b) v := by
  intro arr
  induction arr with
  | nil => intro v _; rfl
  | cons b bs ih =>
    intro v h
    have hb : b < 256 := h b (by simp)
    rw [List.foldl_cons, List.foldl_cons, shiftLeft_lor_step v b hb]
    exact ih (256 * v + b) (fun x hx => h x (List.mem_cons_of_mem _ hx))

/-- Claim C9: on a list of N byte values the decoder returns the big-endian
unsigned-integer interpretation of the bytes (the base-256 fold) together
with bit-width 8×N. -/
theorem c9_bytes_big_endian (arr : List Nat) (h : ∀ b ∈ arr, b < 256) :
    parse_bytes_core arr =
      (arr.foldl (fun value b => 256 * value + b) 0, arr.length * 8) := by
  simp only [parse_bytes_core]
  rw [foldl_shiftor_eq_base256 arr 0 h]

/-- Claim C9, witness: the two-byte list [0, 1] decodes to value 1 with
bit-width 16. -/
theorem c9_bytes_big_endian_witness : parse_bytes_core [0, 1] = (1, 16) := by
  rw [c9_bytes_big_endian [0, 1] (by decide)]
  decide

/-- Closed form of the comparison loop: when every reference value converts,
the loop never raises and its output enumerates, over the indices of the
shorter common prefix, exactly the entries produced by `mismatch_entry`. -/
theorem compareAux_eq :
    ∀ (as : List (Int × Int)) (bs : List (PyVal × Int)) (k : Nat),
      (∀ p ∈ bs, (ref_value p.1).isSome = true) →
      compareAux k as bs = some ((List.range (min as.length bs.length)).filterMap
        (fun j => mismatch_entry (k + j) (as.getD j (0, 0)) (bs.getD j (PyVal.int 0, 0)))) := by
  intro as
  induction as with
  | nil => intro bs k _; cases bs <;> simp [compareAux]
  | cons a as ih =>
    intro bs k h
    cases bs with
    | nil => simp [compareAux]
    | cons b bs =>
      have hb : (ref_value b.1).isSome = true := h b (List.mem_cons_self b bs)
      obtain ⟨b0, hb0⟩ := Option.isSome_iff_exists.mp hb
      have hrest := ih bs (k + 1) (fun p hp => h p (List.mem_cons_of_mem _ hp))
      simp only [compareAux, hb0, hrest]
      rw [List.length_cons, List.length_cons, Nat.succ_min_succ, List.range_succ_eq_map]
      rw [List.filterMap_cons, List.filterMap_map]
      have hf0 : mismatch_entry (k + 0) ((a :: as).getD 0 (0, 0))
          ((b :: bs).getD 0 (PyVal.int 0, 0)) =
          if a ≠ (b0, b.2) then some (k, a, (b0, b.2)) else none := by
        simp [mismatch_entry, hb0]
      have hfs : ((fun j => mismatch_entry (k + j) ((a :: as).getD j (0, 0))
          ((b :: bs).getD j (PyVal.int 0, 0))) ∘ Nat.succ) =
          (fun j => mismatch_entry (k + 1 + j) (as.getD j (0, 0)) (bs.getD j (PyVal.int 0, 0))) := by
        funext j
        simp only [Function.comp_apply, List.getD_cons_succ]
        rw [show k + (j + 1) = k + 1 + j by omega]
      rw [hf0, hfs]
      by_cases hA : a ≠ (b0, b.2)
      · simp [hA]
      · simp [hA]

/-- Claim C8: when the decoded and reference sequences have different lengths
(and every reference value is convertible), the comparator does not abort —
it reports the length-mismatch diagnostic (the `true` flag) and compares
values and bit-widths only over the shorter common prefix, returning one
(index, decoded pair, reference pair) triple for exactly those positions
where the value or the declared bit-width differs (`mismatch_entry` records
a triple exactly when the pair, value and width, differs). -/
theorem c8_length_mismatch_report (arr1 : List (Int × Int)) (arr2 : List (PyVal × Int))
    (href : ∀ p ∈ arr2, (ref_value p.1).isSome = true)
    (hlen : arr1.length ≠ arr2.length) :
    compare_arrays arr1 arr2 = some (true,
      (List.range (min arr1.length arr2.length)).filterMap
        (fun j => mismatch_entry j (arr1.getD j (0, 0)) (arr2.getD j (PyVal.int 0, 0)))) := by
  unfold compare_arrays
  rw [compareAux_eq arr1 arr2 0 href]
  simp [hlen]

/-- Claim C8, witness: a decoded sequence of length 5 against a reference of
length 3 (one value carrying a big-integer marker) yields the diagnostic
flag and exactly one mismatch, at index 2, where value 3 meets reference
value 4 at equal widths. -/
theorem c8_length_mismatch_report_witness :
    compare_arrays [(1, 1), (0, 1), (3, 32), (7, 64), (9, 8)]
      [(PyVal.int 1, 1), (PyVal.str "0n", 1), (PyVal.int 4, 32)] =
      some (true, [(2, (3, 32), (4, 32))]) := by
  rw [c8_length_mismatch_report _ _ (by decide) (by decide)]
  decide

/-- Dropping a prefix satisfying a predicate never lengthens a list. -/
theorem length_dropWhile_le (p : Char → Bool) :
    ∀ l : List Char, (l.dropWhile p).length ≤ l.length := by
  intro l
  induction l with
  | nil => simp
  | cons c cs ih =>
    by_cases hp : p c
    · rw [List.dropWhile_cons_of_pos hp]
      exact Nat.le_trans ih (Nat.le_succ _)
    · rw [List.dropWhile_cons_of_neg hp]

/-- A successful case-insensitive keyword match consumes exactly the
keyword's length. -/
theorem stripPrefixCI_length :
    ∀ (ks l r : List Char), stripPrefixCI ks l = some r → r.length + ks.length = l.length := by
  intro ks
  induction ks with
  | nil =>
    intro l r h
    simp only [stripPrefixCI, Option.some.injEq] at h
    subst h
    simp
  | cons k ks ih =>
    intro l r h
    cases l with
    | nil => exact absurd h (by simp [stripPrefixCI])
    | cons c cs =>
      simp only [stripPrefixCI] at h
      split at h
      · have := ih cs r h
        simp only [List.length_cons]
        omega
      · exact absurd h (by simp)

/-- Consuming `\s*` never lengthens the input. -/
theorem dropSpaces_length (l : List Char) : (dropSpaces l).length ≤ l.length :=
  length_dropWhile_le isPySpace l

/-- Matching one literal character consumes it. -/
theorem expectChar_length (c : Char) :
    ∀ (l r : List Char), expectChar c l = some r → r.length < l.length := by
  intro l r h
  cases l with
  | nil => exact absurd h (by simp [expectChar])
  | cons x xs =>
    simp only [expectChar] at h
    split at h
    · cases h
      simp
    · exact absurd h (by simp)

/-- A successful keyword-alternation match strictly consumes input. -/
theorem matchKeyword_length (l : List Char) (t : Tag) (r : List Char)
    (h : matchKeyword l = some (t, r)) : r.length < l.length := by
  simp only [matchKeyword] at h
  split at h
  · cases h
    rename_i hs
    have := stripPrefixCI_length _ _ _ hs
    simp at this
    omega
  · split at h
    · cases h
      rename_i hs
      have := stripPrefixCI_length _ _ _ hs
      simp at this
      omega
    · split at h
      · cases h
        rename_i hs
        have := stripPrefixCI_length _ _ _ hs
        simp at this
        omega
      · split at h
        · cases h
          rename_i hs
          have := stripPrefixCI_length _ _ _ hs
          simp at this
          omega
        · exact absurd h (by simp)

/-- A successful value match never lengthens the input. -/
theorem parseValue_length (l : List Char) (v : TokVal) (r : List Char)
    (h : parseValue l = some (v, r)) : r.length ≤ l.length := by
  cases h4 : stripPrefixCI ['t', 'r', 'u', 'e'] l with
  | some rt =>
    simp only [parseValue, h4, Option.some.injEq, Prod.mk.injEq] at h
    obtain ⟨-, hr⟩ := h
    subst hr
    have := stripPrefixCI_length _ _ _ h4
    omega
  | none =>
    cases h5 : stripPrefixCI ['f', 'a', 'l', 's', 'e'] l with
    | some rf =>
      simp only [parseValue, h4, h5, Option.some.injEq, Prod.mk.injEq] at h
      obtain ⟨-, hr⟩ := h
      subst hr
      have := stripPrefixCI_length _ _ _ h5
      omega
    | none =>
      cases l with
      | nil => simp [parseValue, stripPrefixCI] at h
      | cons c cs =>
        simp only [parseValue, h4, h5] at h
        split at h
        · simp only [Option.some.injEq, Prod.mk.injEq] at h
          obtain ⟨-, hr⟩ := h
          subst hr
          exact length_dropWhile_le Char.isDigit (c :: cs)
        · split at h
          · cases hdrop : expectChar ']'
                (List.dropWhile (fun x => decide (x ≠ ']')) (List.drop 1 (c :: cs))) with
            | some rest =>
              simp only [hdrop, Option.some.injEq, Prod.mk.injEq] at h
              obtain ⟨-, hr⟩ := h
              subst hr
              have h1 := expectChar_length ']' _ _ hdrop
              have h2 := length_dropWhile_le (fun x => decide (x ≠ ']')) (List.drop 1 (c :: cs))
              have h3 : List.drop 1 (c :: cs) = cs := rfl
              rw [h3] at h1 h2
              simp only [List.length_cons]
              omega
            | none =>
              simp only [hdrop] at h
              exact absurd h (by simp)
          · simp at h

/-- A successful token match strictly consumes input. -/
theorem matchToken_length (l : List Char) (tok : Tag × TokVal) (r : List Char)
    (h : matchToken l = some (tok, r)) : r.length < l.length := by
  simp only [matchToken] at h
  split at h
  · exact absurd h (by simp)
  · rename_i tag r1 hkw
    split at h
    · exact absurd h (by simp)
    · rename_i r3 hbrace
      split at h
      · exact absurd h (by simp)
      · rename_i r5 hval
        split at h
        · exact absurd h (by simp)
        · rename_i v r7 hv
          split at h
          · exact absurd h (by simp)
          · rename_i r9 hclose
            cases h
            have l1 := matchKeyword_length l tag r1 hkw
            have l2 := dropSpaces_length r1
            have l3 := expectChar_length '{' _ _ hbrace
            have l4 := dropSpaces_length r3
            have l5 := stripPrefixCI_length _ _ _ hval
            have l6 := dropSpaces_length r5
            have l7 := parseValue_length _ _ _ hv
            have l8 := dropSpaces_length r7
            have l9 := expectChar_length '}' _ _ hclose
            omega

/-- The scanner ignores its fuel as long as the fuel covers the input
length. -/
theorem scanAux_fuel_irrelevant :
    ∀ (n m : Nat) (l : List Char), l.length ≤ n → l.length ≤ m →
      scanAux n l = scanAux m l := by
  intro n
  induction n with
  | zero =>
    intro m l hn _
    have : l = [] := by
      cases l with
      | nil => rfl
      | cons c cs => simp at hn
    subst this
    cases m <;> rfl
  | succ n ih =>
    intro m l hn hm
    cases m with
    | zero =>
      have : l = [] := by
        cases l with
        | nil => rfl
        | cons c cs => simp at hm
      subst this
      rfl
    | succ m =>
      cases htok : matchToken l with
      | some p =>
        obtain ⟨tok, rest⟩ := p
        have hlt := matchToken_length l tok rest htok
        have e1 : scanAux (n + 1) l = tok :: scanAux n rest := by
          simp [scanAux, htok]
        have e2 : scanAux (m + 1) l = tok :: scanAux m rest := by
          simp [scanAux, htok]
        rw [e1, e2, ih m rest (by omega) (by omega)]
      | none =>
        cases l with
        | nil => rfl
        | cons c cs =>
          have e1 : scanAux (n + 1) (c :: cs) = scanAux n cs := by
            simp [scanAux, htok]
          have e2 : scanAux (m + 1) (c :: cs) = scanAux m cs := by
            simp [scanAux, htok]
          rw [e1, e2]
          exact ih m cs (by simp at hn; omega) (by simp at hm; omega)

/-- No token match can start at a character other than `b`/`B`/`u`/`U`: all
four type keywords begin with one of those. -/
theorem matchToken_none_of_head (c : Char) (t : List Char)
    (hb : c.toLower ≠ 'b') (hu : c.toLower ≠ 'u') : matchToken (c :: t) = none := by
  simp [matchToken, matchKeyword, stripPrefixCI, hb, hu]

/-- Skipping behavior of the scanner: a prefix containing no character that
can start a token contributes nothing — the scan of the concatenation is
the scan of the remainder. -/
theorem scan_append_skip :
    ∀ (g t : List Char), (∀ c ∈ g, c.toLower ≠ 'b' ∧ c.toLower ≠ 'u') →
      scan (g ++ t) = scan t := by
  intro g
  induction g with
  | nil => intro t _; rfl
  | cons c g ih =>
    intro t h
    have hc := h c (List.mem_cons_self c g)
    show scanAux ((c :: (g ++ t)).length) (c :: (g ++ t)) = scan t
    rw [List.length_cons]
    simp only [scanAux, matchToken_none_of_head c (g ++ t) hc.1 hc.2]
    exact ih t (fun x hx => h x (List.mem_cons_of_mem _ hx))

/-- Claim C7, counterexample: a text containing material that does not
conform to the tagged-primitive grammar is not fatal — the tokenizer skips
the junk and returns the partial stream of the one well-formed token. -/
theorem c7_tokenizer_counterexample :
    parse_format_A "###x### BOOL \x7b val: true \x7d ###y###" = some [(1, 1)] := by
  decide

/-- Claim C7, amended: material not matching the tagged-primitive grammar is
silently skipped rather than fatal — prepending any text whose characters
cannot start a token leaves the decode of the remainder unchanged, so the
tokenizer returns the partial stream of whichever tokens do match
(decoding is only fatal when a matched token's value cannot be converted,
such as a U32 whose captured value is not an integer). -/
theorem c7_tokenizer_amended (g t : List Char)
    (h : ∀ c ∈ g, c.toLower ≠ 'b' ∧ c.toLower ≠ 'u') :
    parse_format_A (String.mk (g ++ t)) = parse_format_A (String.mk t) := by
  unfold parse_format_A
  rw [show (String.mk (g ++ t)).data = g ++ t from rfl, show (String.mk t).data = t from rfl]
  rw [scan_append_skip g t h]

/-- Claim C7, witness: junk prepended to a U32 token is skipped and the token
alone is decoded. -/
theorem c7_tokenizer_amended_witness :
    parse_format_A (String.mk ("@!# ".data ++ "U32 \x7b val: 7 \x7d".data)) = some [(7, 32)] := by
  rw [c7_tokenizer_amended "@!# ".data "U32 \x7b val: 7 \x7d".data (by decide)]
  decide

